import Mathlib

/-!
Shallow embedding of the omnivore-sync Joplin plugin (src/index.ts) and
verification of its specification claims.

The embedding covers:
- the registered settings and their first-install default values
  (`registerSettings`, lines 36-147 of src/index.ts);
- the `resetOmnivoreSyncData` command (lines 149-165);
- the `syncOmnivoreArticles` manual command (lines 167-179);
- the `setupScheduledSync` scheduler and its `setInterval` callback
  (lines 184-200), modelled as a small-step event semantics over a
  plugin state that tracks the live timers and the number of sync runs
  currently in flight;
- the custom Turndown heading rule (lines 14-21), including a faithful
  model of the JavaScript global regex replace
  `content.replace(/\[]\([^)]+\)/g, '')` and of `String.prototype.trim`.
-/

namespace OmnivoreSync

/-! ### Settings data model (registerSettings, src/index.ts lines 36-147) -/

/-- The settings registered by the plugin, one field per registered key.
Values are modelled by their stored representation: strings for string
settings, `Int` for `SettingItemType.Int` settings. -/
structure Settings where
  omnivoreApiKey : String
  syncType : String
  syncInterval : Int
  targetNotebook : String
  userTimezone : String
  highlightTemplateChoice : String
  highlightSyncPeriod : Int
  highlightTitlePrefix : String
  logLevel : String
  lastSyncDate : String
  syncedItems : String
  syncedHighlights : String
deriving DecidableEq, Repr

/-- The first-install default values passed to `registerSettings`
(src/index.ts lines 36-147). -/
def defaultSettings : Settings where
  omnivoreApiKey := ""
  syncType := "all"
  syncInterval := 0
  targetNotebook := "Omnivore"
  userTimezone := "local"
  highlightTemplateChoice := "default"
  highlightSyncPeriod := 14
  highlightTitlePrefix := "Omnivore Highlights"
  logLevel := "warn"
  lastSyncDate := ""
  syncedItems := "[]"
  syncedHighlights := "\x7b\x7d"

/-! ### Observable effects of command and timer executions -/

/-- Where a sync run was started from. -/
inductive RunOrigin where
  | manual
  | scheduled
deriving DecidableEq, Repr

/-- Externally observable actions performed by the command handlers and the
scheduled-sync timer callback. -/
inductive Effect where
  | logError (msg : String)
  | logInfo (msg : String)
  | showMessage (msg : String)
  | constructClient (apiKey : String)
  | startRun (origin : RunOrigin)
  | setValue (key : String) (value : String)
deriving DecidableEq, Repr

/-! ### The resetOmnivoreSyncData command (src/index.ts lines 149-165) -/

/-- The `resetOmnivoreSyncData` command handler. `dialogResult` is the value
returned by `showMessageBox`; the source compares it with 0 (OK). On OK the
handler sets `lastSyncDate` to the empty string, `syncedItems` to the empty
array encoding and `syncedHighlights` to the empty object encoding; otherwise
it only logs a cancellation message and leaves every setting untouched. -/
def resetOmnivoreSyncData (s : Settings) (dialogResult : Int) : Settings × List Effect :=
  if dialogResult = 0 then
    ({ s with lastSyncDate := "", syncedItems := "[]", syncedHighlights := "\x7b\x7d" },
     [Effect.setValue "lastSyncDate" "",
      Effect.setValue "syncedItems" "[]",
      Effect.setValue "syncedHighlights" "\x7b\x7d",
      Effect.logInfo "Omnivore sync data has been reset.",
      Effect.showMessage "Omnivore sync data has been reset. The next sync will fetch all articles and highlights."])
  else
    (s, [Effect.logInfo "Reset operation cancelled by user."])

/-! ### The syncOmnivoreArticles command (src/index.ts lines 167-179) -/

/-- The error message logged by the manual sync command when the API key is
not set. -/
def missingKeyMessage : String :=
  "Omnivore API key not set. Please set your API key in the plugin settings."

/-- The `syncOmnivoreArticles` command handler. It reads `omnivoreApiKey`;
an empty key is falsy in JavaScript, so the handler logs an error and
returns. Otherwise it constructs an `OmnivoreClient` from the key and calls
`syncArticles`. -/
def syncOmnivoreArticles (s : Settings) : List Effect :=
  if s.omnivoreApiKey = "" then
    [Effect.logError missingKeyMessage]
  else
    [Effect.constructClient s.omnivoreApiKey, Effect.startRun RunOrigin.manual]

/-- The callback passed to `setInterval` by `setupScheduledSync`
(src/index.ts lines 187-193). It reads `omnivoreApiKey`; if the key is
truthy it constructs a client and calls `syncArticles`, otherwise it does
nothing at all: no client, no sync, no log message. -/
def scheduledSyncTick (s : Settings) : List Effect :=
  if s.omnivoreApiKey = "" then
    []
  else
    [Effect.constructClient s.omnivoreApiKey, Effect.startRun RunOrigin.scheduled]

/-! ### Scheduler state machine (src/index.ts lines 184-200)

The plugin state tracks the current settings, the interval values of the
live `setInterval` timers in creation order, and how many sync runs are
currently in flight.  `syncArticles` is asynchronous, so a run started by
one trigger can still be in flight when another trigger fires; `startRun`
increments the in-flight counter and a separate `runFinishes` event
decrements it. -/

structure PluginState where
  settings : Settings
  timers : List Int
  activeRuns : Nat
deriving DecidableEq, Repr

/-- `setupScheduledSync` (src/index.ts lines 184-195): it reads
`syncInterval` and, when positive, calls `setInterval`, which adds a new
live timer.  The source never stores the handle returned by `setInterval`
and never calls `clearInterval`, so existing timers are left untouched. -/
def setupScheduledSync (s : PluginState) : PluginState :=
  if s.settings.syncInterval > 0 then
    { s with timers := s.timers ++ [s.settings.syncInterval] }
  else
    s

/-- Events driving the plugin after startup: a settings change of the sync
interval or the API key (both fire the `joplin.settings.onChange` handler,
which calls `setupScheduledSync` again, src/index.ts lines 198-200), a
firing of the i-th live timer, a manual invocation of the sync command, and
the completion of an in-flight sync run. -/
inductive Event where
  | changeInterval (n : Int)
  | changeApiKey (k : String)
  | timerFires (i : Nat)
  | manualSync
  | runFinishes
deriving DecidableEq, Repr

/-- Number of sync runs started by a list of effects. -/
def countRuns (effs : List Effect) : Nat :=
  effs.countP fun e =>
    match e with
    | Effect.startRun _ => true
    | _ => false

/-- One step of the plugin: how the state reacts to an event and which
effects are emitted, following src/index.ts lines 167-200. Nothing in the
source consults the in-flight counter: the timer callback and the manual
command start a sync run whenever the API key is non-empty. -/
def step (s : PluginState) : Event → PluginState × List Effect
  | Event.changeInterval n =>
      (setupScheduledSync { s with settings := { s.settings with syncInterval := n } }, [])
  | Event.changeApiKey k =>
      (setupScheduledSync { s with settings := { s.settings with omnivoreApiKey := k } }, [])
  | Event.timerFires i =>
      if i < s.timers.length then
        let effs := scheduledSyncTick s.settings
        ({ s with activeRuns := s.activeRuns + countRuns effs }, effs)
      else
        (s, [])
  | Event.manualSync =>
      let effs := syncOmnivoreArticles s.settings
      ({ s with activeRuns := s.activeRuns + countRuns effs }, effs)
  | Event.runFinishes =>
      ({ s with activeRuns := s.activeRuns - 1 }, [])

/-- Plugin startup (`onStart`): the settings hold their stored values and
`setupScheduledSync` is called once (src/index.ts line 197). -/
def onStart (stored : Settings) : PluginState :=
  setupScheduledSync { settings := stored, timers := [], activeRuns := 0 }

/-- Run a sequence of events from a state, collecting all emitted effects. -/
def runTrace (s : PluginState) : List Event → PluginState × List Effect
  | [] => (s, [])
  | e :: es =>
      let r := step s e
      let r' := runTrace r.1 es
      (r'.1, r.2 ++ r'.2)

/-! ### The Turndown heading rule (src/index.ts lines 14-21)

The rule's replacement function computes
`'\n\n' + '#'.repeat(hLevel) + ' ' + cleanContent.trim() + '\n\n'` where
`hLevel = Number(node.nodeName.charAt(1))` and
`cleanContent = content.replace(/\[]\([^)]+\)/g, '')`.  We model strings as
`List Char`, the global regex replace as a left-to-right scanner
(`removeAnchors`) and `String.prototype.trim` as `jsTrim`. -/

/-- Scans for the first unescaped close parenthesis and returns the suffix
after it; models the `[^)]+\)` part of the regex once at least one body
character has been consumed. -/
def findClose : List Char → Option (List Char)
  | [] => none
  | c :: rest => if c = ')' then some rest else findClose rest

/-- Attempts to match the regex `\[]\([^)]+\)` at the head of the list.
On success returns the remainder after the match.  The match requires the
literal characters open bracket, close bracket, open parenthesis, then at
least one character different from the close parenthesis, then the close
parenthesis; `[^)]+` is greedy but cannot cross a close parenthesis, so the
match extends exactly to the first close parenthesis. -/
def matchAnchor : List Char → Option (List Char)
  | a :: b :: c :: d :: rest =>
      if a = '[' ∧ b = ']' ∧ c = '(' ∧ d ≠ ')' then findClose rest else none
  | _ => none

/-- The JavaScript global replace `content.replace(/\[]\([^)]+\)/g, '')`:
scan left to right; where the regex matches, drop the matched characters and
continue after the match; otherwise keep one character and continue. -/
def removeAnchors : List Char → List Char
  | [] => []
  | c :: rest =>
      match h : matchAnchor (c :: rest) with
      | some rem => removeAnchors rem
      | none => c :: removeAnchors rest
termination_by l => l.length
decreasing_by
  · have hfind : ∀ (l rem : List Char), findClose l = some rem → rem.length < l.length := by
      intro l
      induction l with
      | nil => intro rem hr; simp [findClose] at hr
      | cons x xs ih =>
        intro rem hr
        simp only [findClose] at hr
        split at hr
        · cases hr; simp
        · exact Nat.lt_trans (ih rem hr) (by simp)
    rcases rest with _ | ⟨b, _ | ⟨c2, _ | ⟨d, rest'⟩⟩⟩
    · simp [matchAnchor] at h
    · simp [matchAnchor] at h
    · simp [matchAnchor] at h
    · simp only [matchAnchor] at h
      split at h
      · have := hfind rest' rem h
        simp only [List.length_cons]
        omega
      · cases h
  · simp

/-- JavaScript whitespace as far as `String.prototype.trim` and this
plugin's heading contents are concerned: space, tab, line feed, carriage
return, vertical tab, form feed. -/
def isJsSpace (c : Char) : Bool :=
  c = ' ' || c = '\t' || c = '\n' || c = '\r' ||
    c = Char.ofNat 11 || c = Char.ofNat 12

/-- `String.prototype.trim`: remove whitespace from both ends. -/
def jsTrim (l : List Char) : List Char :=
  ((l.dropWhile isJsSpace).reverse.dropWhile isJsSpace).reverse

/-- The DOM node passed to the replacement function.  Beyond `nodeName`
(which is all the source reads) we carry further node data to express that
the rule's output does not depend on it. -/
structure DomNode where
  nodeName : List Char
  attributes : List (String × String)
  childCount : Nat
deriving DecidableEq, Repr

/-- `Number(node.nodeName.charAt(1))` for the heading elements H1 through
H6: the digit value of the second character of the node name. -/
def hLevelOf (n : DomNode) : Nat :=
  match n.nodeName with
  | _ :: d :: _ => d.toNat - 48
  | _ => 0

/-- Turndown conversion options; the replacement function receives them but
never reads them. -/
structure ConversionOptions where
  headingStyle : String
  codeBlockStyle : String
deriving DecidableEq, Repr

/-- The replacement function of the custom heading rule (src/index.ts
lines 16-20): strip every anchor remnant matched by the regex, trim the
result, and wrap it with the heading markers and one blank line on each
side. -/
def headingReplacement (content : List Char) (node : DomNode)
    (_options : ConversionOptions) : List Char :=
  let cleanContent := removeAnchors content
  '\n' :: '\n' :: (List.replicate (hLevelOf node) '#' ++ ' ' :: jsTrim cleanContent ++ ['\n', '\n'])

/-- An anchor-link remnant with body `u`: the characters of `[](u)`. -/
def anchorRemnant (u : List Char) : List Char :=
  '[' :: ']' :: '(' :: (u ++ [')'])

/-- The fully empty remnant, the literal text of an empty link: open
bracket, close bracket, open parenthesis, close parenthesis. -/
def emptyRemnant : List Char := ['[', ']', '(', ')']

/-- Events whose settings writes keep the sync interval non-positive. -/
def intervalNonpositiveEvent : Event → Prop
  | Event.changeInterval n => n ≤ 0
  | _ => True

/-- The state predicate of a plugin that has never created a timer. -/
def noTimerState (s : PluginState) : Prop :=
  s.timers = [] ∧ s.settings.syncInterval ≤ 0

/-- The view of the persisted sync state inside the settings: exactly the
three private settings the sync engine reads as its cursor and synced
sets. -/
structure SyncStateView where
  lastSyncDate : String
  syncedItems : String
  syncedHighlights : String
deriving DecidableEq, Repr

/-- Projects the persisted sync state out of the settings. -/
def syncView (s : Settings) : SyncStateView where
  lastSyncDate := s.lastSyncDate
  syncedItems := s.syncedItems
  syncedHighlights := s.syncedHighlights

/-- Settings with an API key configured and a five-minute sync interval;
used as the start state of concrete scheduler traces. -/
def keyedSettings : Settings :=
  { defaultSettings with omnivoreApiKey := "key", syncInterval := 5 }

/-! ## Helper lemmas about the anchor-remnant regex replace -/

theorem removeAnchors_nil : removeAnchors [] = [] := by
  simp [removeAnchors]

theorem removeAnchors_cons_of_match {c : Char} {rest rem : List Char}
    (h : matchAnchor (c :: rest) = some rem) :
    removeAnchors (c :: rest) = removeAnchors rem := by
  rw [removeAnchors]
  split
  · rename_i rem' h'
    rw [h] at h'
    cases h'
    rfl
  · rename_i h'
    rw [h] at h'
    cases h'

theorem removeAnchors_cons_of_none {c : Char} {rest : List Char}
    (h : matchAnchor (c :: rest) = none) :
    removeAnchors (c :: rest) = c :: removeAnchors rest := by
  rw [removeAnchors]
  split
  · rename_i rem' h'
    rw [h] at h'
    cases h'
  · rfl

theorem matchAnchor_none_of_head {c : Char} (hc : c ≠ '[') (l : List Char) :
    matchAnchor (c :: l) = none := by
  rcases l with _ | ⟨b, _ | ⟨c2, _ | ⟨d, rest⟩⟩⟩
  · rfl
  · rfl
  · rfl
  · simp [matchAnchor, hc]

theorem findClose_append {u : List Char} (hu : ')' ∉ u) (s : List Char) :
    findClose (u ++ ')' :: s) = some s := by
  induction u with
  | nil => simp [findClose]
  | cons x xs ih =>
    simp only [List.mem_cons, not_or] at hu
    simp only [List.cons_append, findClose]
    rw [if_neg (fun hx => hu.1 hx.symm)]
    exact ih hu.2

theorem matchAnchor_anchor {u : List Char} (hne : u ≠ []) (hu : ')' ∉ u) (s : List Char) :
    matchAnchor ('[' :: ']' :: '(' :: (u ++ ')' :: s)) = some s := by
  obtain ⟨d, u', rfl⟩ := List.exists_cons_of_ne_nil hne
  simp only [List.mem_cons, not_or] at hu
  simp only [List.cons_append, matchAnchor]
  rw [if_pos ⟨trivial, trivial, trivial, fun hd => hu.1 hd.symm⟩]
  exact findClose_append hu.2 s

theorem matchAnchor_emptyRemnant (s : List Char) :
    matchAnchor ('[' :: ']' :: '(' :: ')' :: s) = none := by
  simp [matchAnchor]

theorem removeAnchors_append_noBracket {t : List Char} (ht : '[' ∉ t) (s : List Char) :
    removeAnchors (t ++ s) = t ++ removeAnchors s := by
  induction t with
  | nil => simp
  | cons x xs ih =>
    simp only [List.mem_cons, not_or] at ht
    rw [List.cons_append,
      removeAnchors_cons_of_none (matchAnchor_none_of_head (fun hx => ht.1 hx.symm) _),
      ih ht.2, List.cons_append]

theorem removeAnchors_of_noBracket {t : List Char} (ht : '[' ∉ t) :
    removeAnchors t = t := by
  have h := removeAnchors_append_noBracket ht []
  simpa [removeAnchors_nil] using h

theorem removeAnchors_anchor {u : List Char} (hne : u ≠ []) (hu : ')' ∉ u) (s : List Char) :
    removeAnchors ('[' :: ']' :: '(' :: (u ++ ')' :: s)) = removeAnchors s :=
  removeAnchors_cons_of_match (matchAnchor_anchor hne hu s)

theorem removeAnchors_emptyRemnant_cons (s : List Char) :
    removeAnchors ('[' :: ']' :: '(' :: ')' :: s) =
      '[' :: ']' :: '(' :: ')' :: removeAnchors s := by
  rw [removeAnchors_cons_of_none (matchAnchor_emptyRemnant s),
    removeAnchors_cons_of_none (matchAnchor_none_of_head (by decide) _),
    removeAnchors_cons_of_none (matchAnchor_none_of_head (by decide) _),
    removeAnchors_cons_of_none (matchAnchor_none_of_head (by decide) _)]

theorem anchorRemnant_append (u s : List Char) :
    anchorRemnant u ++ s = '[' :: ']' :: '(' :: (u ++ ')' :: s) := by
  simp [anchorRemnant]

theorem mem_of_mem_dropWhile {c : Char} {p : Char → Bool} {l : List Char}
    (h : c ∈ l.dropWhile p) : c ∈ l := by
  induction l with
  | nil => simp [List.dropWhile] at h
  | cons x xs ih =>
    rw [List.dropWhile_cons] at h
    split at h
    · exact List.mem_cons_of_mem x (ih h)
    · exact h

theorem mem_of_mem_jsTrim {c : Char} {l : List Char} (h : c ∈ jsTrim l) : c ∈ l := by
  unfold jsTrim at h
  rw [List.mem_reverse] at h
  have h1 := mem_of_mem_dropWhile h
  rw [List.mem_reverse] at h1
  exact mem_of_mem_dropWhile h1

/-! ## Helper lemmas about the scheduler state machine -/

theorem step_preserves_noTimer (s : PluginState) (e : Event)
    (hs : noTimerState s) (he : intervalNonpositiveEvent e) :
    noTimerState (step s e).1 ∧
      Effect.startRun RunOrigin.scheduled ∉ (step s e).2 := by
  obtain ⟨ht, hi⟩ := hs
  cases e with
  | changeInterval n =>
    simp only [intervalNonpositiveEvent] at he
    have hcond : ¬ ((n : Int) > 0) := by omega
    simp [noTimerState, step, setupScheduledSync, hcond, ht, he]
  | changeApiKey k =>
    have hcond : ¬ (s.settings.syncInterval > 0) := by omega
    simp [noTimerState, step, setupScheduledSync, hcond, ht, hi]
  | timerFires i =>
    have hlen : ¬ (i < s.timers.length) := by simp [ht]
    simp [noTimerState, step, hlen, ht, hi]
  | manualSync =>
    by_cases hk : s.settings.omnivoreApiKey = "" <;>
      simp [noTimerState, step, syncOmnivoreArticles, countRuns, hk, ht, hi]
  | runFinishes =>
    simp [noTimerState, step, ht, hi]

theorem runTrace_noTimer (s : PluginState) (evs : List Event)
    (hs : noTimerState s) (hevs : ∀ e ∈ evs, intervalNonpositiveEvent e) :
    noTimerState (runTrace s evs).1 ∧
      Effect.startRun RunOrigin.scheduled ∉ (runTrace s evs).2 := by
  induction evs generalizing s with
  | nil => simpa [runTrace] using hs
  | cons e es ih =>
    have h1 := step_preserves_noTimer s e hs (hevs e (List.mem_cons_self e es))
    have h2 := ih (step s e).1 h1.1 (fun e' he' => hevs e' (List.mem_cons_of_mem e he'))
    refine ⟨?_, ?_⟩
    · simpa [runTrace] using h2.1
    · simp only [runTrace, List.mem_append]
      rintro (h | h)
      · exact h1.2 h
      · exact h2.2 h

/-! ## Claim theorems -/

/-- C1: the claim says a scheduled trigger firing while a run is in flight is
skipped and a new run never starts while one is active.  The code has no
mutual-exclusion mechanism at all: starting from a configured API key and a
five-minute interval, a manual sync followed by a timer firing before that
run finishes leaves two sync runs in flight, and the emitted effects show the
scheduled trigger constructed a client and started a second run instead of
being skipped. -/
theorem scheduled_trigger_fires_during_active_run :
    (runTrace (onStart keyedSettings) [Event.manualSync, Event.timerFires 0]).1.activeRuns = 2 ∧
    (runTrace (onStart keyedSettings) [Event.manualSync, Event.timerFires 0]).2 =
      [Effect.constructClient "key", Effect.startRun RunOrigin.manual,
       Effect.constructClient "key", Effect.startRun RunOrigin.scheduled] := by
  decide

/-- C2: the claim says a settings change tears down the existing recurring
timer and recreates it from the new interval, so the old timer never fires
again.  The code never stores the `setInterval` handle and never calls
`clearInterval`: after startup with a five-minute interval and a settings
change to ten minutes, both timers are live, and the old five-minute timer
still triggers a full scheduled sync when it fires. -/
theorem settings_change_keeps_old_timer :
    (runTrace (onStart keyedSettings) [Event.changeInterval 10]).1.timers = [5, 10] ∧
    (step (runTrace (onStart keyedSettings) [Event.changeInterval 10]).1 (Event.timerFires 0)).2 =
      [Effect.constructClient "key", Effect.startRun RunOrigin.scheduled] := by
  decide

/-- C3: for a heading element of level 1 through 6 whose content consists of
plain text around an anchor-link remnant, the heading rule produces the
two-newline-wrapped line made of exactly that many marker characters, a
single space, and the content with the remnant removed and trimmed; no open
bracket, hence no link syntax, remains in the output. -/
theorem heading_rule_clean_heading (level : Nat) (d : Char) (node : DomNode)
    (opts : ConversionOptions)
    (hlevel1 : 1 ≤ level) (hlevel6 : level ≤ 6)
    (hd : d.toNat = 48 + level) (hn : node.nodeName = ['H', d])
    (t₁ t₂ u : List Char)
    (h₁ : '[' ∉ t₁) (h₂ : '[' ∉ t₂) (hu : u ≠ []) (hu' : ')' ∉ u) :
    headingReplacement (t₁ ++ anchorRemnant u ++ t₂) node opts =
      '\n' :: '\n' :: (List.replicate level '#' ++ ' ' :: jsTrim (t₁ ++ t₂) ++ ['\n', '\n']) ∧
    '[' ∉ headingReplacement (t₁ ++ anchorRemnant u ++ t₂) node opts := by
  have hclean : removeAnchors (t₁ ++ anchorRemnant u ++ t₂) = t₁ ++ t₂ := by
    rw [show t₁ ++ anchorRemnant u ++ t₂ = t₁ ++ (anchorRemnant u ++ t₂) by
      simp [List.append_assoc]]
    rw [removeAnchors_append_noBracket h₁, anchorRemnant_append,
      removeAnchors_anchor hu hu', removeAnchors_of_noBracket h₂]
  have hlev : hLevelOf node = level := by
    simp [hLevelOf, hn, hd]
  have heq : headingReplacement (t₁ ++ anchorRemnant u ++ t₂) node opts =
      '\n' :: '\n' :: (List.replicate level '#' ++ ' ' :: jsTrim (t₁ ++ t₂) ++ ['\n', '\n']) := by
    unfold headingReplacement
    rw [hclean, hlev]
  have hnotmem : '[' ∉ jsTrim (t₁ ++ t₂) := by
    intro h
    have hm := mem_of_mem_jsTrim h
    rw [List.mem_append] at hm
    rcases hm with h' | h'
    · exact h₁ h'
    · exact h₂ h'
  refine ⟨heq, ?_⟩
  rw [heq]
  intro hmem
  simp only [List.mem_cons, List.mem_append, List.mem_replicate,
    List.mem_singleton] at hmem
  rcases hmem with h | h | (h | h | h) | h | h | h
  · exact absurd h (by decide)
  · exact absurd h (by decide)
  · exact absurd h.2 (by decide)
  · exact absurd h (by decide)
  · exact hnotmem h
  · exact absurd h (by decide)
  · exact absurd h (by decide)
  · exact absurd h (List.not_mem_nil _)

/-- C3 witness: a level-2 heading whose content carries one anchor remnant
evaluates to the clean marker line with the remnant gone. -/
theorem heading_rule_clean_heading_witness :
    headingReplacement (['T', 'i', 't', 'l', 'e', ' '] ++ anchorRemnant ['#', 'a'] ++ [' ', 'E', 'n', 'd'])
        ⟨['H', '2'], [], 0⟩ ⟨"atx", "fenced"⟩ =
      '\n' :: '\n' :: (List.replicate 2 '#' ++ ' ' ::
        jsTrim (['T', 'i', 't', 'l', 'e', ' '] ++ [' ', 'E', 'n', 'd']) ++ ['\n', '\n']) ∧
    '[' ∉ headingReplacement (['T', 'i', 't', 'l', 'e', ' '] ++ anchorRemnant ['#', 'a'] ++ [' ', 'E', 'n', 'd'])
        ⟨['H', '2'], [], 0⟩ ⟨"atx", "fenced"⟩ :=
  heading_rule_clean_heading 2 '2' ⟨['H', '2'], [], 0⟩ ⟨"atx", "fenced"⟩
    (by decide) (by decide) (by decide) rfl
    ['T', 'i', 't', 'l', 'e', ' '] [' ', 'E', 'n', 'd'] ['#', 'a']
    (by decide) (by decide) (by decide) (by decide)

/-- C4: when the configured API key is the empty string, the manual sync
command logs exactly one error and performs nothing else: it constructs no
remote client and starts no sync run, so no network call is attempted. -/
theorem manual_sync_refuses_missing_key (s : Settings)
    (h : s.omnivoreApiKey = "") :
    syncOmnivoreArticles s = [Effect.logError missingKeyMessage] ∧
    (∀ k, Effect.constructClient k ∉ syncOmnivoreArticles s) ∧
    (∀ o, Effect.startRun o ∉ syncOmnivoreArticles s) := by
  simp [syncOmnivoreArticles, h]

/-- C4 witness: first-install settings have an empty API key, and the manual
sync command only reports the error there. -/
theorem manual_sync_refuses_missing_key_witness :
    defaultSettings.omnivoreApiKey = "" ∧
    syncOmnivoreArticles defaultSettings = [Effect.logError missingKeyMessage] :=
  ⟨rfl, (manual_sync_refuses_missing_key defaultSettings rfl).1⟩

/-- C5: the reset command mutates the persisted sync state only when the
confirmation dialog returned OK; on OK all three values are cleared in one
state update, on cancel the settings are returned unchanged, and in every
case the result is all-cleared or untouched, never partial. -/
theorem reset_requires_confirmation_and_is_atomic (s : Settings) (dialogResult : Int) :
    (dialogResult = 0 → (resetOmnivoreSyncData s dialogResult).1 =
      { s with lastSyncDate := "", syncedItems := "[]", syncedHighlights := "\x7b\x7d" }) ∧
    (dialogResult ≠ 0 → (resetOmnivoreSyncData s dialogResult).1 = s) ∧
    (((resetOmnivoreSyncData s dialogResult).1.lastSyncDate = "" ∧
      (resetOmnivoreSyncData s dialogResult).1.syncedItems = "[]" ∧
      (resetOmnivoreSyncData s dialogResult).1.syncedHighlights = "\x7b\x7d") ∨
      (resetOmnivoreSyncData s dialogResult).1 = s) := by
  by_cases h : dialogResult = 0 <;> simp [resetOmnivoreSyncData, h]

/-- C5 witness: cancelling the dialog (result 1) leaves the settings record
untouched. -/
theorem reset_requires_confirmation_and_is_atomic_witness :
    (resetOmnivoreSyncData keyedSettings 1).1 = keyedSettings :=
  (reset_requires_confirmation_and_is_atomic keyedSettings 1).2.1 (by decide)

/-- C6: after a confirmed reset the persisted sync state equals the
registered first-install defaults: empty last-sync date, empty synced-items
array, empty synced-highlights object, for any prior settings. -/
theorem reset_restores_first_install_defaults (s : Settings) :
    syncView (resetOmnivoreSyncData s 0).1 = syncView defaultSettings ∧
    (syncView defaultSettings).lastSyncDate = "" ∧
    (syncView defaultSettings).syncedItems = "[]" ∧
    (syncView defaultSettings).syncedHighlights = "\x7b\x7d" := by
  simp [resetOmnivoreSyncData, syncView, defaultSettings]

/-- C7 counterexample: the claim says that when the configured sync interval
is zero no automatic sync is ever triggered.  Starting from a five-minute
interval and then setting the interval to zero, the configured interval is
zero, yet the stale five-minute timer still fires and starts a scheduled
sync run. -/
theorem zero_interval_still_syncs_counterexample :
    ((runTrace (onStart keyedSettings) [Event.changeInterval 0, Event.timerFires 0]).1).settings.syncInterval = 0 ∧
    Effect.startRun RunOrigin.scheduled ∈
      (runTrace (onStart keyedSettings) [Event.changeInterval 0, Event.timerFires 0]).2 := by
  decide

/-- C7 amended: when the configured sync interval is zero at startup and
every later interval change keeps it non-positive, `setupScheduledSync`
never creates a timer and no scheduled sync run is ever started; sync runs
only on manual invocation.  (If a positive interval was ever configured, its
timer survives later reconfiguration to zero.) -/
theorem zero_interval_from_start_manual_only (stored : Settings) (evs : List Event)
    (h0 : stored.syncInterval ≤ 0)
    (hevs : ∀ e ∈ evs, intervalNonpositiveEvent e) :
    (runTrace (onStart stored) evs).1.timers = [] ∧
      Effect.startRun RunOrigin.scheduled ∉ (runTrace (onStart stored) evs).2 := by
  have hcond : ¬ (stored.syncInterval > 0) := by omega
  have hstart : noTimerState (onStart stored) := by
    simp [noTimerState, onStart, setupScheduledSync, hcond, h0]
  have h := runTrace_noTimer (onStart stored) evs hstart hevs
  exact ⟨h.1.1, h.2⟩

/-- C7 witness: with first-install settings (interval zero) a manual sync
and a timer-fire event create no timer and start no scheduled run. -/
theorem zero_interval_from_start_manual_only_witness :
    (runTrace (onStart defaultSettings) [Event.manualSync, Event.timerFires 0]).1.timers = [] ∧
      Effect.startRun RunOrigin.scheduled ∉
        (runTrace (onStart defaultSettings) [Event.manualSync, Event.timerFires 0]).2 :=
  zero_interval_from_start_manual_only defaultSettings [Event.manualSync, Event.timerFires 0]
    (by decide)
    (by simp [List.forall_mem_cons, intervalNonpositiveEvent])

/-- C8: the heading rule's replacement is deterministic and stateless: its
output is a function of the content and the node name alone, independent of
the conversion options, of all other node data, and of any prior call, so
two invocations on the same content and node yield identical output. -/
theorem heading_rule_deterministic_stateless (content : List Char)
    (n₁ n₂ : DomNode) (o₁ o₂ : ConversionOptions)
    (h : n₁.nodeName = n₂.nodeName) :
    headingReplacement content n₁ o₁ = headingReplacement content n₂ o₂ := by
  unfold headingReplacement hLevelOf
  rw [h]

/-- C8 witness: two nodes sharing a node name but differing in attributes
and children, converted under different options, give the same output. -/
theorem heading_rule_deterministic_stateless_witness :
    headingReplacement ['H', 'i'] ⟨['H', '2'], [("class", "x")], 3⟩ ⟨"atx", "fenced"⟩ =
      headingReplacement ['H', 'i'] ⟨['H', '2'], [], 0⟩ ⟨"setext", "indented"⟩ :=
  heading_rule_deterministic_stateless ['H', 'i'] ⟨['H', '2'], [("class", "x")], 3⟩
    ⟨['H', '2'], [], 0⟩ ⟨"atx", "fenced"⟩ ⟨"setext", "indented"⟩ rfl

/-- C9: the anchor-remnant removal deletes every occurrence of the pattern
(open bracket, close bracket, open parenthesis, one or more characters other
than close parenthesis, close parenthesis), not just the first, while the
literal empty remnant (open bracket, close bracket, open parenthesis, close
parenthesis) is never removed and survives in the output. -/
theorem anchor_removal_global_except_empty (t₁ t₂ t₃ t₄ u v : List Char)
    (h₁ : '[' ∉ t₁) (h₂ : '[' ∉ t₂) (h₃ : '[' ∉ t₃) (h₄ : '[' ∉ t₄)
    (hu : u ≠ []) (hu' : ')' ∉ u) (hv : v ≠ []) (hv' : ')' ∉ v) :
    removeAnchors (t₁ ++ anchorRemnant u ++ t₂ ++ anchorRemnant v ++ t₃ ++ emptyRemnant ++ t₄) =
      t₁ ++ t₂ ++ t₃ ++ emptyRemnant ++ t₄ := by
  rw [show t₁ ++ anchorRemnant u ++ t₂ ++ anchorRemnant v ++ t₃ ++ emptyRemnant ++ t₄ =
      t₁ ++ (anchorRemnant u ++ (t₂ ++ (anchorRemnant v ++ (t₃ ++ (emptyRemnant ++ t₄))))) by
    simp [List.append_assoc]]
  rw [removeAnchors_append_noBracket h₁, anchorRemnant_append,
    removeAnchors_anchor hu hu', removeAnchors_append_noBracket h₂, anchorRemnant_append,
    removeAnchors_anchor hv hv', removeAnchors_append_noBracket h₃]
  rw [show emptyRemnant ++ t₄ = '[' :: ']' :: '(' :: ')' :: t₄ from rfl,
    removeAnchors_emptyRemnant_cons, removeAnchors_of_noBracket h₄]
  simp [List.append_assoc, emptyRemnant]

/-- C9 witness: both non-empty remnants in a content with two of them are
deleted and the empty remnant in the same content survives. -/
theorem anchor_removal_global_except_empty_witness :
    removeAnchors (['a'] ++ anchorRemnant ['u'] ++ ['b'] ++ anchorRemnant ['v', 'w'] ++ ['c'] ++ emptyRemnant ++ ['d']) =
      ['a'] ++ ['b'] ++ ['c'] ++ emptyRemnant ++ ['d'] :=
  anchor_removal_global_except_empty ['a'] ['b'] ['c'] ['d'] ['u'] ['v', 'w']
    (by decide) (by decide) (by decide) (by decide)
    (by decide) (by decide) (by decide) (by decide)

/-- C10: when the scheduled timer fires with an empty API key the trigger is
skipped silently: the callback emits no effect at all, neither a client
construction nor a sync run nor any log message; the manual command on the
same settings, by contrast, logs an error. -/
theorem scheduled_tick_silent_on_missing_key (s : Settings)
    (h : s.omnivoreApiKey = "") :
    scheduledSyncTick s = [] ∧
    syncOmnivoreArticles s = [Effect.logError missingKeyMessage] := by
  simp [scheduledSyncTick, syncOmnivoreArticles, h]

/-- C10 witness: on first-install settings the timer callback does nothing
while the manual command logs the error. -/
theorem scheduled_tick_silent_on_missing_key_witness :
    scheduledSyncTick defaultSettings = [] ∧
    syncOmnivoreArticles defaultSettings = [Effect.logError missingKeyMessage] :=
  scheduled_tick_silent_on_missing_key defaultSettings rfl

end OmnivoreSync
